import Mathlib

/-!
Shallow embedding of the tool-install reconciler: the `install` flow
(crates/uv/src/commands/tool/install.rs) and the `upgrade` flow
(crates/uv/src/commands/tool/upgrade.rs). External collaborators
(interpreter discovery, requirement-name resolution, environment
resolution/sync/update) are modelled as oracle functions supplied as
input; the on-disk installation root (receipts, environments,
entrypoint shims) is an explicit state threaded through both flows.
Each flow also produces a trace of the observable calls it makes, so
that ordering and flag-value properties can be stated.
-/

set_option autoImplicit false

namespace UvTool

/-- Normalized tool identifiers, interpreter identities and option values
are modelled as strings. -/
abbrev PackageName := String

/-- A resolved requirement: a package name together with its version
constraint or exact source. Receipt equality is exact ordered structural
equality over lists of these. -/
structure Req where
  name : PackageName
  constraint : String
deriving DecidableEq, Repr

/-- Resolver/installer configuration attached to a tool
(`ToolOptions` / `ResolverInstallerOptions`; the two are identified in
this model). Each field is optional so that `combine` can express the
CLI > receipt > filesystem precedence. -/
structure ToolOptions where
  index : Option String
  policy : Option String
deriving DecidableEq, Repr

/-- `Combine::combine` from uv-settings: `a.combine b` keeps every field
of `a` that is set and fills unset fields from `b`, so the left operand
takes precedence. -/
def ToolOptions.combine (a b : ToolOptions) : ToolOptions :=
  ⟨a.index.orElse (fun _ => b.index), a.policy.orElse (fun _ => b.policy)⟩

/-- A persisted tool receipt: requirement list, options, and the
requested interpreter, as read and written by the flows. -/
structure Receipt where
  requirements : List Req
  options : ToolOptions
  python : Option String
deriving DecidableEq, Repr

/-- `Receipt.with_options`: replace only the options field. -/
def Receipt.withOptions (r : Receipt) (o : ToolOptions) : Receipt :=
  { r with options := o }

/-- Outcome of reading a stored receipt file: it parses (`valid`) or it
exists but cannot be parsed (`invalid`); absence is modelled by the
state map returning `none`. -/
inductive StoredReceipt where
  | valid (r : Receipt)
  | invalid
deriving DecidableEq, Repr

/-- A filesystem-backed tool environment: its interpreter, the installed
package set, and the entry points its installed distribution declares. -/
structure Environment where
  interpreter : String
  packages : List Req
  entryPoints : List String
deriving DecidableEq, Repr

/-- The installation root: receipts and environments per tool, plus the
shim directory mapping each entrypoint name to the tool that owns it. -/
structure ToolState where
  receipts : List (PackageName × StoredReceipt)
  environments : List (PackageName × Environment)
  entrypoints : List (String × PackageName)
deriving DecidableEq, Repr

/-- Association-list lookup (first binding wins). -/
def alookup {β : Type} : List (String × β) → String → Option β
  | [], _ => none
  | (k, v) :: rest, key => if k = key then some v else alookup rest key

/-- Association-list update: replace the first binding for the key, or
append a fresh binding. -/
def aupdate {β : Type} : List (String × β) → String → β → List (String × β)
  | [], key, v => [(key, v)]
  | (k, w) :: rest, key, v =>
      if k = key then (key, v) :: rest else (k, w) :: aupdate rest key v

/-- Association-list removal of every binding for the key. -/
def aremove {β : Type} : List (String × β) → String → List (String × β)
  | [], _ => []
  | (k, w) :: rest, key =>
      if k = key then aremove rest key else (k, w) :: aremove rest key

/-- Typed errors surfaced by the flows (§7 of the design). -/
inductive Err where
  | interpreterFailure
  | fromSpecConflict (fromSpec package : String)
  | nameConflict (resolved positional : PackageName)
  | resolveNamesFailure
  | resolutionFailure
  | updateFailure
  | syncFailure
  | envReadFailure
  | entrypointCollision (shim : String)
deriving DecidableEq, Repr

/-- Process exit status of a command. -/
inductive ExitStatus where
  | success
  | failure
deriving DecidableEq, Repr

/-- Observable calls made by a flow, in order. Mutating steps and the
non-mutating environment resolution are both recorded. -/
inductive Event where
  | removeEnvironment (name : PackageName)
  | resolveEnvironmentCall (reqs : List Req)
  | createEnvironment (name : PackageName)
  | syncEnvironmentCall (name : PackageName)
  | updateEnvironmentCall (name : PackageName) (reqs : List Req)
  | removeEntrypointsCall (name : PackageName)
  | installExecutablesCall (name : PackageName) (force : Bool) (reqs : List Req)
  | writeReceipt (name : PackageName) (r : Receipt)
deriving DecidableEq, Repr

/-- The external collaborators (§6): interpreter discovery, requirement
resolution, non-mutating environment resolution, in-place update and
sync, plus fault switches for the receipt-store reads that can fail. -/
structure Oracles where
  findInterpreter : Option String → Except Err String
  resolveFromSpec : String → Bool → Except Err Req
  resolveWithList : List String → Except Err (List Req)
  pythonSatisfied : String → String → Bool
  resolveEnvironment : String → List Req → Except Err (List Req)
  updateEnvironment : Environment → List Req → Except Err Environment
  syncEnvironment : Environment → List Req → Except Err Environment
  getEnvErr : PackageName → Bool
  toolsErr : Bool

/-- Modelled from the spec: `PackageName::from_str` (uv-normalize) is not
under src/. A positional argument parses as a plain package name iff it
carries no specifier, extras, source or whitespace syntax. -/
def parsePackageName (s : String) : Option PackageName :=
  if s.toList.any (fun c => c == '=' || c == '<' || c == '>' || c == '@' || c == '[' || c == ' ')
  then none else some s

/-- Modelled from the spec: `remove_entrypoints` (tool/common.rs,
EntrypointManager §4.4) is not under src/; it deletes the shims
previously recorded for the given tool's receipt. -/
def removeEntrypointsState (name : PackageName) (s : ToolState) : ToolState :=
  { s with entrypoints := s.entrypoints.filter (fun p => p.2 != name) }

/-- Modelled from the spec: `install_executables` (tool/common.rs,
EntrypointManager §4.4 and §4.2 step 8) is not under src/. It enumerates
the entry points exposed by the environment's installed distribution,
refuses to overwrite a same-named shim owned by another tool unless
`force` is set, then writes the shims and persists the receipt built
from the given requirements, options and interpreter request. -/
def install_executables (env : Environment) (name : PackageName)
    (opts : ToolOptions) (force : Bool) (python : Option String)
    (reqs : List Req) (s : ToolState) :
    Except Err ExitStatus × ToolState × List Event :=
  match env.entryPoints.find? (fun ep =>
      match alookup s.entrypoints ep with
      | some owner => owner != name && !force
      | none => false) with
  | some ep =>
      (Except.error (Err.entrypointCollision ep), s,
        [Event.installExecutablesCall name force reqs])
  | none =>
      let r : Receipt := ⟨reqs, opts, python⟩
      (Except.ok ExitStatus.success,
        { s with
          entrypoints := env.entryPoints.foldl (fun acc ep => aupdate acc ep name) s.entrypoints,
          receipts := aupdate s.receipts name (StoredReceipt.valid r) },
        [Event.installExecutablesCall name force reqs, Event.writeReceipt name r])

/-- Arguments of `install` (install.rs lines 34-51): positional package,
editable flag, optional explicit from spec, auxiliary with sources,
optional interpreter request, force flag, tool options, and the
reinstall/upgrade switches read from the resolver settings. -/
structure InstallArgs where
  package : String
  editable : Bool
  fromSpec : Option String
  withSrcs : List String
  python : Option String
  force : Bool
  options : ToolOptions
  reinstallRequested : Bool
  upgradeRequested : Bool

/-- Resolution of the primary requirement (install.rs lines 85-156):
with an explicit from spec, the positional argument must parse as a
plain package name, the from spec is resolved to a concrete requirement,
and its resolved name must match the positional name; otherwise the
positional package itself is resolved. -/
def resolveFromStep (a : InstallArgs) (o : Oracles) : Except Err Req :=
  match a.fromSpec with
  | some f =>
      match parsePackageName a.package with
      | none => Except.error (Err.fromSpecConflict f a.package)
      | some p =>
          match o.resolveFromSpec f a.editable with
          | Except.error e => Except.error e
          | Except.ok fr =>
              if fr.name ≠ p then Except.error (Err.nameConflict fr.name p)
              else Except.ok fr
  | none => o.resolveFromSpec a.package a.editable

/-- Existing-environment lookup with the interpreter filter (install.rs
lines 219-236): the environment, if present, is kept for reuse only when
no interpreter was requested or the requested interpreter is satisfied
by the environment's interpreter. -/
def usableEnvironment (pythonReq : Option String) (o : Oracles)
    (name : PackageName) (s : ToolState) : Option Environment :=
  match alookup s.environments name with
  | none => none
  | some env =>
      match pythonReq with
      | none => some env
      | some py => if o.pythonSatisfied py env.interpreter then some env else none

/-- Replace (or create) the stored environment binding for a tool. -/
def envUpdate (s : ToolState) (name : PackageName) (env : Environment) : ToolState :=
  { s with environments := aupdate s.environments name env }

/-- Remove the old receipt's entrypoints when a prior receipt exists
(install.rs lines 297-301 and 324-328): `remove_entrypoints` runs only
under `if let Some(existing_receipt)`. -/
def receiptCleanup (receiptOpt : Option Receipt) (name : PackageName) (s : ToolState) : ToolState :=
  match receiptOpt with
  | some _ => removeEntrypointsState name s
  | none => s

/-- The events recorded for the conditional old-receipt cleanup. -/
def cleanupEvents (receiptOpt : Option Receipt) (name : PackageName) : List Event :=
  match receiptOpt with
  | some _ => [Event.removeEntrypointsCall name]
  | none => []

/-- Prefix a trace onto a step outcome. -/
def appendTrace (tr : List Event)
    (out : Except Err ExitStatus × ToolState × List Event) :
    Except Err ExitStatus × ToolState × List Event :=
  (out.1, out.2.1, tr ++ out.2.2)

/-- The mutation arm of `install` (install.rs lines 266-358): in-place
update of a usable existing environment, or resolution-then-create-sync
for a fresh one, followed by entrypoint installation with
`force || invalid_tool_receipt`. -/
def installMutate (o : Oracles) (a : InstallArgs) (interp : String)
    (name : PackageName) (reqs : List Req) (opts : ToolOptions)
    (receiptOpt : Option Receipt) (invalid : Bool)
    (envOpt : Option Environment) (s : ToolState) :
    Except Err ExitStatus × ToolState × List Event :=
  match envOpt with
  | some env =>
      match o.updateEnvironment env reqs with
      | Except.error e => (Except.error e, s, [Event.updateEnvironmentCall name reqs])
      | Except.ok env1 =>
          appendTrace (Event.updateEnvironmentCall name reqs :: cleanupEvents receiptOpt name)
            (install_executables env1 name opts (a.force || invalid) a.python reqs
              (receiptCleanup receiptOpt name (envUpdate s name env1)))
  | none =>
      match o.resolveEnvironment interp reqs with
      | Except.error e => (Except.error e, s, [Event.resolveEnvironmentCall reqs])
      | Except.ok resolution =>
          match o.syncEnvironment ⟨interp, [], []⟩ resolution with
          | Except.error e =>
              (Except.error e,
                receiptCleanup receiptOpt name (envUpdate s name ⟨interp, [], []⟩),
                [Event.resolveEnvironmentCall reqs, Event.createEnvironment name] ++
                  cleanupEvents receiptOpt name ++ [Event.syncEnvironmentCall name])
          | Except.ok env1 =>
              appendTrace
                ([Event.resolveEnvironmentCall reqs, Event.createEnvironment name] ++
                  cleanupEvents receiptOpt name ++ [Event.syncEnvironmentCall name])
                (install_executables env1 name opts (a.force || invalid) a.python reqs
                  (envUpdate
                    (receiptCleanup receiptOpt name (envUpdate s name ⟨interp, [], []⟩))
                    name env1))

/-- The `install` flow (install.rs): interpreter discovery, primary and
auxiliary requirement resolution, three-way receipt lookup with
invalid-receipt environment removal, the interpreter filter on the
existing environment, the idempotence short-circuit, and otherwise the
mutation arm. -/
def install (a : InstallArgs) (o : Oracles) (s : ToolState) :
    Except Err ExitStatus × ToolState × List Event :=
  match o.findInterpreter a.python with
  | Except.error e => (Except.error e, s, [])
  | Except.ok interp =>
  match resolveFromStep a o with
  | Except.error e => (Except.error e, s, [])
  | Except.ok fromReq =>
  match o.resolveWithList a.withSrcs with
  | Except.error e => (Except.error e, s, [])
  | Except.ok withReqs =>
    let name := fromReq.name
    let reqs := fromReq :: withReqs
    let opts := a.options
    let step4 : Option Receipt × Bool × ToolState × List Event :=
      match alookup s.receipts name with
      | none => (none, false, s, [])
      | some (StoredReceipt.valid r) => (some r, false, s, [])
      | some StoredReceipt.invalid =>
          (none, true, { s with environments := aremove s.environments name },
            [Event.removeEnvironment name])
    let receiptOpt := step4.1
    let invalid := step4.2.1
    let s1 := step4.2.2.1
    let tr1 := step4.2.2.2
    if o.getEnvErr name then (Except.error Err.envReadFailure, s1, tr1)
    else
      let envOpt := usableEnvironment a.python o name s1
      match envOpt, receiptOpt with
      | some _, some r =>
          if reqs = r.requirements ∧ a.force = false ∧
              a.reinstallRequested = false ∧ a.upgradeRequested = false then
            if r.options ≠ opts then
              let newReceipts := aupdate s1.receipts name (StoredReceipt.valid (r.withOptions opts))
              (Except.ok ExitStatus.success, { s1 with receipts := newReceipts },
                tr1 ++ [Event.writeReceipt name (r.withOptions opts)])
            else (Except.ok ExitStatus.success, s1, tr1)
          else
            let out := installMutate o a interp name reqs opts receiptOpt invalid envOpt s1
            (out.1, out.2.1, tr1 ++ out.2.2)
      | _, _ =>
          let out := installMutate o a interp name reqs opts receiptOpt invalid envOpt s1
          (out.1, out.2.1, tr1 ++ out.2.2)

/-- Lexicographic order on characters by code point. -/
def charLt (c d : Char) : Bool := Nat.blt c.toNat d.toNat

/-- Lexicographic order on character lists. -/
def strLtChars : List Char → List Char → Bool
  | [], [] => false
  | [], _ :: _ => true
  | _ :: _, [] => false
  | c :: cs, d :: ds =>
      if charLt c d then true else if charLt d c then false else strLtChars cs ds

/-- Lexicographic order on names: the `Ord` used by the `BTreeSet` of
package names. -/
def strLt (a b : PackageName) : Bool := strLtChars a.toList b.toList

/-- Ordered, deduplicating insertion: the model of collecting names into
a `BTreeSet` (upgrade.rs lines 44-53). -/
def insertName (n : PackageName) : List PackageName → List PackageName
  | [] => [n]
  | m :: rest =>
      if n = m then m :: rest
      else if strLt n m then n :: m :: rest
      else m :: insertName n rest

/-- Sorted deduplicated name list. -/
def sortNames (l : List PackageName) : List PackageName :=
  l.foldr insertName []

/-- The name set `upgrade` iterates (upgrade.rs lines 44-53): the single
explicit target, or every installed tool, where an error from the
receipt-store enumeration is replaced by the empty list
(`tools().unwrap_or_default()`). -/
def upgradeNames (name : Option PackageName) (o : Oracles) (s : ToolState) :
    List PackageName :=
  match name with
  | some n => [n]
  | none => sortNames ((if o.toolsErr then [] else s.receipts).map Prod.fst)

/-- The per-tool body of `upgrade` (upgrade.rs lines 60-156): require a
valid receipt and a present environment (otherwise exit with failure),
merge options CLI > receipt > filesystem, update the environment in
place with the receipt's unchanged requirements, remove the old shims,
and install executables with the force flag set. -/
def upgradeTool (o : Oracles) (args filesystem : ToolOptions)
    (n : PackageName) (s : ToolState) :
    Except Err ExitStatus × ToolState × List Event :=
  match alookup s.receipts n with
  | none => (Except.ok ExitStatus.failure, s, [])
  | some StoredReceipt.invalid => (Except.ok ExitStatus.failure, s, [])
  | some (StoredReceipt.valid receipt) =>
      if o.getEnvErr n then (Except.ok ExitStatus.failure, s, [])
      else
        match alookup s.environments n with
        | none => (Except.ok ExitStatus.failure, s, [])
        | some env =>
            let opts := args.combine (receipt.options.combine filesystem)
            let reqs := receipt.requirements
            match o.updateEnvironment env reqs with
            | Except.error e => (Except.error e, s, [Event.updateEnvironmentCall n reqs])
            | Except.ok env1 =>
                let s1 : ToolState := { s with environments := aupdate s.environments n env1 }
                let s2 := removeEntrypointsState n s1
                let out := install_executables env1 n opts true receipt.python reqs s2
                (out.1, out.2.1,
                  [Event.updateEnvironmentCall n reqs, Event.removeEntrypointsCall n] ++ out.2.2)

/-- The `upgrade` loop (upgrade.rs lines 60-156): process tools in
order; a per-tool `Ok` result lets the loop continue only when the body
ran to completion, while the body's early `return` of a failure status
or a propagated error ends the whole command at that tool. -/
def upgradeLoop (o : Oracles) (args filesystem : ToolOptions) :
    List PackageName → ToolState →
    Except Err ExitStatus × ToolState × List Event
  | [], s => (Except.ok ExitStatus.success, s, [])
  | n :: rest, s =>
      match upgradeTool o args filesystem n s with
      | (Except.ok ExitStatus.success, s1, tr1) =>
          let out := upgradeLoop o args filesystem rest s1
          (out.1, out.2.1, tr1 ++ out.2.2)
      | other => other

/-- The `upgrade` flow (upgrade.rs): build the target name set, report
"nothing to upgrade" with success when it is empty, and otherwise run
the per-tool loop. -/
def upgrade (name : Option PackageName) (args filesystem : ToolOptions)
    (o : Oracles) (s : ToolState) :
    Except Err ExitStatus × ToolState × List Event :=
  let names := upgradeNames name o s
  if names.isEmpty then (Except.ok ExitStatus.success, s, [])
  else upgradeLoop o args filesystem names s

/-! Concrete fixtures used by counterexamples and witnesses. -/

/-- Empty options. -/
def opts0 : ToolOptions := ⟨none, none⟩

/-- Options with an index set. -/
def optsA : ToolOptions := ⟨some "idx", none⟩

/-- A resolved requirement for the tool `pkga`. -/
def req0 : Req := ⟨"pkga", "*"⟩

/-- A valid receipt for `pkga`. -/
def rcpt0 : Receipt := ⟨[req0], opts0, none⟩

/-- An environment for `pkga`. -/
def env0 : Environment := ⟨"py38", [req0], ["pkga-cli"]⟩

/-- A well-behaved oracle assignment: every collaborator call succeeds. -/
def oracle0 : Oracles where
  findInterpreter := fun _ => Except.ok "py38"
  resolveFromSpec := fun sp _ => Except.ok ⟨sp, "*"⟩
  resolveWithList := fun l => Except.ok (l.map (fun x => ⟨x, "*"⟩))
  pythonSatisfied := fun _ _ => true
  resolveEnvironment := fun _ reqs => Except.ok reqs
  updateEnvironment := fun env reqs => Except.ok { env with packages := reqs }
  syncEnvironment := fun env res =>
    Except.ok { env with packages := res, entryPoints := ["pkga-cli"] }
  getEnvErr := fun _ => false
  toolsErr := false

/-- `oracle0` with a failing environment resolution. -/
def oracleFailRes : Oracles :=
  { oracle0 with resolveEnvironment := fun _ _ => Except.error Err.resolutionFailure }

/-- `oracle0` with a failing receipt-store enumeration. -/
def oracleToolsErr : Oracles := { oracle0 with toolsErr := true }

/-- Plain install request for `pkga`. -/
def args0 : InstallArgs := ⟨"pkga", false, none, [], none, false, opts0, false, false⟩

/-- State with `pkga` fully installed: valid receipt, environment, shim. -/
def state0 : ToolState :=
  ⟨[("pkga", StoredReceipt.valid rcpt0)], [("pkga", env0)], [("pkga-cli", "pkga")]⟩

/-! General lemmas about the association-list state. -/

/-- Looking up a removed key yields nothing. -/
theorem alookup_aremove {β : Type} (l : List (String × β)) (k : String) :
    alookup (aremove l k) k = none := by
  induction l with
  | nil => rfl
  | cons p rest ih =>
      obtain ⟨x, v⟩ := p
      by_cases h : x = k
      · simpa [aremove, h] using ih
      · simp [aremove, alookup, h, ih]

/-- Looking up an updated key yields the new value. -/
theorem alookup_aupdate_self {β : Type} (l : List (String × β)) (k : String) (v : β) :
    alookup (aupdate l k v) k = some v := by
  induction l with
  | nil => simp [aupdate, alookup]
  | cons p rest ih =>
      obtain ⟨x, w⟩ := p
      by_cases h : x = k
      · simp [aupdate, alookup, h]
      · simp [aupdate, alookup, h, ih]

/-- On the fresh-install path (no usable environment) with a readable
receipt, a failing environment resolution aborts `install` with the
state unchanged and only the non-mutating resolve call in the trace. -/
theorem install_fresh_resolve_error (a : InstallArgs) (o : Oracles) (s : ToolState)
    (interp : String) (fromReq : Req) (withReqs : List Req) (e : Err)
    (hI : o.findInterpreter a.python = Except.ok interp)
    (hF : resolveFromStep a o = Except.ok fromReq)
    (hW : o.resolveWithList a.withSrcs = Except.ok withReqs)
    (hrec : alookup s.receipts fromReq.name ≠ some StoredReceipt.invalid)
    (hE : o.getEnvErr fromReq.name = false)
    (henv : usableEnvironment a.python o fromReq.name s = none)
    (hres : o.resolveEnvironment interp (fromReq :: withReqs) = Except.error e) :
    install a o s =
      (Except.error e, s, [Event.resolveEnvironmentCall (fromReq :: withReqs)]) := by
  unfold install
  simp only [hI, hF, hW]
  rcases hsr : alookup s.receipts fromReq.name with _ | sr
  · simp only [hsr, hE, henv]
    unfold installMutate
    simp [hres]
  · cases sr with
    | invalid => exact absurd hsr hrec
    | valid r =>
        simp only [hsr, hE, henv]
        unfold installMutate
        simp [hres]

/-- Every entrypoint-installation event records exactly the force flag
the call was given. -/
theorem install_executables_exec_force (env : Environment) (name : PackageName)
    (opts : ToolOptions) (force : Bool) (python : Option String) (reqs : List Req)
    (s : ToolState) (n : PackageName) (f : Bool) (rq : List Req)
    (h : Event.installExecutablesCall n f rq ∈
        (install_executables env name opts force python reqs s).2.2) :
    f = force := by
  unfold install_executables at h
  split at h <;> simp_all

/-- The entrypoint-installation model emits no in-place environment
update events. -/
theorem install_executables_no_update (env : Environment) (name : PackageName)
    (opts : ToolOptions) (force : Bool) (python : Option String) (reqs : List Req)
    (s : ToolState) (n : PackageName) (rq : List Req) :
    Event.updateEnvironmentCall n rq ∉
      (install_executables env name opts force python reqs s).2.2 := by
  unfold install_executables
  split <;> simp

/-- In the mutation arm of `install`, every entrypoint installation
carries the flag `force || invalid`. -/
theorem installMutate_exec_force (o : Oracles) (a : InstallArgs) (interp : String)
    (name : PackageName) (reqs : List Req) (opts : ToolOptions)
    (receiptOpt : Option Receipt) (invalid : Bool) (envOpt : Option Environment)
    (s : ToolState) (n : PackageName) (f : Bool) (rq : List Req)
    (h : Event.installExecutablesCall n f rq ∈
        (installMutate o a interp name reqs opts receiptOpt invalid envOpt s).2.2) :
    f = (a.force || invalid) := by
  unfold installMutate at h
  repeat any_goals split at h
  all_goals cases receiptOpt
  all_goals try simp [appendTrace, cleanupEvents] at h
  all_goals exact install_executables_exec_force _ _ _ _ _ _ _ _ _ _ h

/-- The fresh-environment arm of the mutation step never updates an
environment in place. -/
theorem installMutate_fresh_no_update (o : Oracles) (a : InstallArgs) (interp : String)
    (name : PackageName) (reqs : List Req) (opts : ToolOptions)
    (receiptOpt : Option Receipt) (invalid : Bool) (s : ToolState)
    (n : PackageName) (rq : List Req) :
    Event.updateEnvironmentCall n rq ∉
      (installMutate o a interp name reqs opts receiptOpt invalid none s).2.2 := by
  intro h
  unfold installMutate at h
  repeat any_goals split at h
  all_goals try contradiction
  all_goals cases receiptOpt
  all_goals try simp [appendTrace, cleanupEvents] at h
  all_goals exact install_executables_no_update _ _ _ _ _ _ _ _ _ h

/-- With the force flag set, entrypoint installation never hits the
collision error: it writes the shims and the receipt unconditionally. -/
theorem install_executables_force_true (env : Environment) (name : PackageName)
    (opts : ToolOptions) (python : Option String) (reqs : List Req) (s : ToolState) :
    install_executables env name opts true python reqs s =
      (Except.ok ExitStatus.success,
        { s with
          entrypoints := env.entryPoints.foldl (fun acc ep => aupdate acc ep name) s.entrypoints,
          receipts := aupdate s.receipts name (StoredReceipt.valid ⟨reqs, opts, python⟩) },
        [Event.installExecutablesCall name true reqs,
          Event.writeReceipt name ⟨reqs, opts, python⟩]) := by
  unfold install_executables
  have hfind : env.entryPoints.find? (fun ep =>
      match alookup s.entrypoints ep with
      | some owner => owner != name && !true
      | none => false) = none := by
    apply List.find?_eq_none.mpr
    intro x _
    cases alookup s.entrypoints x <;> simp
  rw [hfind]

/-- The per-tool upgrade body forces every entrypoint installation. -/
theorem upgradeTool_exec_force (o : Oracles) (args fs : ToolOptions) (n : PackageName)
    (s : ToolState) (m : PackageName) (f : Bool) (rq : List Req)
    (h : Event.installExecutablesCall m f rq ∈ (upgradeTool o args fs n s).2.2) :
    f = true := by
  unfold upgradeTool at h
  repeat any_goals split at h
  all_goals try simp at h
  repeat any_goals split at h
  all_goals try simp at h
  all_goals exact install_executables_exec_force _ _ _ _ _ _ _ _ _ _ h

/-- The upgrade loop forces every entrypoint installation. -/
theorem upgradeLoop_exec_force (o : Oracles) (args fs : ToolOptions) :
    ∀ (names : List PackageName) (s : ToolState) (m : PackageName) (f : Bool) (rq : List Req),
      Event.installExecutablesCall m f rq ∈ (upgradeLoop o args fs names s).2.2 → f = true := by
  intro names
  induction names with
  | nil => intro s m f rq h; simp [upgradeLoop] at h
  | cons n rest ih =>
      intro s m f rq h
      unfold upgradeLoop at h
      split at h
      · rename_i s1 tr1 heq
        rcases List.mem_append.mp h with h1 | h1
        · exact upgradeTool_exec_force o args fs n s m f rq (by rw [heq]; exact h1)
        · exact ih s1 m f rq h1
      · exact upgradeTool_exec_force o args fs n s m f rq h

/-! Claim theorems. -/

/-- C4: when the stored receipt exists but cannot be parsed, `install`
deletes the existing on-disk environment first (the first recorded event
is the environment removal), never reuses the old environment in place
(no in-place update event can occur), and every entrypoint installation
is forced — regardless of the `force` flag, which is universally
quantified here. -/
theorem install_invalid_receipt_forces_reinstall (a : InstallArgs) (o : Oracles) (s : ToolState)
    (interp : String) (fromReq : Req) (withReqs : List Req)
    (hI : o.findInterpreter a.python = Except.ok interp)
    (hF : resolveFromStep a o = Except.ok fromReq)
    (hW : o.resolveWithList a.withSrcs = Except.ok withReqs)
    (hrec : alookup s.receipts fromReq.name = some StoredReceipt.invalid)
    (hE : o.getEnvErr fromReq.name = false) :
    (install a o s).2.2.head? = some (Event.removeEnvironment fromReq.name) ∧
    (∀ n rq, Event.updateEnvironmentCall n rq ∉ (install a o s).2.2) ∧
    (∀ n f rq, Event.installExecutablesCall n f rq ∈ (install a o s).2.2 → f = true) := by
  have henv : usableEnvironment a.python o fromReq.name
      { s with environments := aremove s.environments fromReq.name } = none := by
    unfold usableEnvironment
    simp [alookup_aremove]
  have hinst : install a o s =
      appendTrace [Event.removeEnvironment fromReq.name]
        (installMutate o a interp fromReq.name (fromReq :: withReqs) a.options none true none
          { s with environments := aremove s.environments fromReq.name }) := by
    unfold install
    simp only [hI, hF, hW, hrec, hE, henv]
    simp [appendTrace]
  rw [hinst]
  refine ⟨by simp [appendTrace], ?_, ?_⟩
  · intro n rq h
    simp only [appendTrace, List.singleton_append, List.mem_cons] at h
    rcases h with h | h
    · simp at h
    · exact installMutate_fresh_no_update o a interp fromReq.name (fromReq :: withReqs)
        a.options none true _ n rq h
  · intro n f rq h
    simp only [appendTrace, List.singleton_append, List.mem_cons] at h
    rcases h with h | h
    · simp at h
    · have hf := installMutate_exec_force o a interp fromReq.name (fromReq :: withReqs)
        a.options none true none _ n f rq h
      simpa using hf

/-- Witness for C4 at a concrete input: `pkga` has an unparseable
receipt and an environment; `install` without `--force` removes the
environment first, takes the fresh path, and forces the shims. -/
theorem install_invalid_receipt_forces_reinstall_witness :
    (install args0 oracle0
        ⟨[("pkga", StoredReceipt.invalid)], [("pkga", env0)], [("pkga-cli", "pkga")]⟩).2.2.head? =
      some (Event.removeEnvironment "pkga") ∧
    (∀ n rq, Event.updateEnvironmentCall n rq ∉
      (install args0 oracle0
        ⟨[("pkga", StoredReceipt.invalid)], [("pkga", env0)], [("pkga-cli", "pkga")]⟩).2.2) ∧
    (∀ n f rq, Event.installExecutablesCall n f rq ∈
      (install args0 oracle0
        ⟨[("pkga", StoredReceipt.invalid)], [("pkga", env0)], [("pkga-cli", "pkga")]⟩).2.2 → f = true) :=
  install_invalid_receipt_forces_reinstall args0 oracle0
    ⟨[("pkga", StoredReceipt.invalid)], [("pkga", env0)], [("pkga-cli", "pkga")]⟩
    "py38" req0 [] rfl rfl rfl rfl rfl

/-- C5: given both a positional package and an explicit from spec whose
resolved names differ, `install` fails with a name-conflict error and no
state mutation: the final state is the initial state and the trace is
empty, for every oracle assignment (any resolver outcome elsewhere). -/
theorem install_name_conflict_no_mutation (a : InstallArgs) (o : Oracles) (s : ToolState)
    (f p : String) (fr : Req) (interp : String)
    (hI : o.findInterpreter a.python = Except.ok interp)
    (hf : a.fromSpec = some f)
    (hp : parsePackageName a.package = some p)
    (hr : o.resolveFromSpec f a.editable = Except.ok fr)
    (hne : fr.name ≠ p) :
    install a o s = (Except.error (Err.nameConflict fr.name p), s, []) := by
  unfold install resolveFromStep
  simp only [hI, hf, hp, hr]
  simp [hne]

/-- Witness for C5 at a concrete input: positional `pkgb` with
`--from pkga`. -/
theorem install_name_conflict_no_mutation_witness :
    install ⟨"pkgb", false, some "pkga", [], none, false, opts0, false, false⟩ oracle0 state0 =
      (Except.error (Err.nameConflict "pkga" "pkgb"), state0, []) :=
  install_name_conflict_no_mutation _ oracle0 state0 "pkga" "pkgb" ⟨"pkga", "*"⟩ "py38"
    rfl rfl rfl rfl (by decide)

/-- C2: when a usable environment exists, the stored receipt is valid,
its requirement list equals the candidate list under exact ordered
equality, and none of force/reinstall/upgrade are requested, `install`
returns success with zero package mutations: environments and
entrypoints are untouched, and the only possible state change is the
receipt rewritten with the requested options when they differ from the
stored ones. -/
theorem install_idempotent_short_circuit (a : InstallArgs) (o : Oracles) (s : ToolState)
    (interp : String) (fromReq : Req) (withReqs : List Req) (r : Receipt) (env : Environment)
    (hI : o.findInterpreter a.python = Except.ok interp)
    (hF : resolveFromStep a o = Except.ok fromReq)
    (hW : o.resolveWithList a.withSrcs = Except.ok withReqs)
    (hrec : alookup s.receipts fromReq.name = some (StoredReceipt.valid r))
    (hE : o.getEnvErr fromReq.name = false)
    (henv : usableEnvironment a.python o fromReq.name s = some env)
    (hreq : fromReq :: withReqs = r.requirements)
    (hforce : a.force = false) (hre : a.reinstallRequested = false)
    (hup : a.upgradeRequested = false) :
    install a o s =
      if r.options ≠ a.options then
        (Except.ok ExitStatus.success,
          { s with receipts := aupdate s.receipts fromReq.name (StoredReceipt.valid (r.withOptions a.options)) },
          [Event.writeReceipt fromReq.name (r.withOptions a.options)])
      else (Except.ok ExitStatus.success, s, []) := by
  unfold install
  simp only [hI, hF, hW, hrec, hE, henv]
  simp [hreq, hforce, hre, hup]

/-- Install request for `pkga` with options `optsA`. -/
def argsC2 : InstallArgs := ⟨"pkga", false, none, [], none, false, optsA, false, false⟩

/-- Witness for C2 at a concrete input: `pkga` already installed with
identical requirements but different options, so only the receipt's
options field is rewritten. -/
theorem install_idempotent_short_circuit_witness :
    install argsC2 oracle0 state0 =
      (Except.ok ExitStatus.success,
        { state0 with receipts := aupdate state0.receipts "pkga" (StoredReceipt.valid (rcpt0.withOptions optsA)) },
        [Event.writeReceipt "pkga" (rcpt0.withOptions optsA)]) := by
  rw [install_idempotent_short_circuit argsC2 oracle0 state0 "py38" req0 [] rcpt0 env0
    rfl rfl rfl rfl rfl rfl rfl rfl rfl rfl]
  rfl

/-- C3 counterexample: the claim demands that a failing fresh-path
resolution leaves any existing install untouched, for every such input.
At this input the stored receipt is unparseable, so the pre-existing
environment of `pkga` was already deleted before the failing resolution:
resolution fails, yet the existing install was destroyed. -/
theorem install_resolution_failure_after_invalid_receipt :
    (install args0 oracleFailRes
        ⟨[("pkga", StoredReceipt.invalid)], [("pkga", env0)], [("pkga-cli", "pkga")]⟩).1 =
      Except.error Err.resolutionFailure ∧
    (install args0 oracleFailRes
        ⟨[("pkga", StoredReceipt.invalid)], [("pkga", env0)], [("pkga-cli", "pkga")]⟩).2.1.environments =
      [] :=
  ⟨rfl, rfl⟩

/-- C3 amended: on the fresh-install path, `install` performs the
non-mutating resolution of the candidate set before any destructive
step, and when that resolution fails and the stored receipt was not
Invalid, it aborts with no new environment, no receipt write, no
entrypoint change, and any existing install untouched — the final state
is exactly the initial one. (When the stored receipt was Invalid, the
stale environment has already been deleted before resolution.) -/
theorem install_resolution_before_mutation (a : InstallArgs) (o : Oracles) (s : ToolState)
    (interp : String) (fromReq : Req) (withReqs : List Req) (e : Err)
    (hI : o.findInterpreter a.python = Except.ok interp)
    (hF : resolveFromStep a o = Except.ok fromReq)
    (hW : o.resolveWithList a.withSrcs = Except.ok withReqs)
    (hrec : alookup s.receipts fromReq.name ≠ some StoredReceipt.invalid)
    (hE : o.getEnvErr fromReq.name = false)
    (henv : usableEnvironment a.python o fromReq.name s = none)
    (hres : o.resolveEnvironment interp (fromReq :: withReqs) = Except.error e) :
    install a o s =
      (Except.error e, s, [Event.resolveEnvironmentCall (fromReq :: withReqs)]) :=
  install_fresh_resolve_error a o s interp fromReq withReqs e hI hF hW hrec hE henv hres

/-- Witness for C3 at a concrete input: a brand-new tool (no receipt,
no environment) whose resolution fails leaves the state untouched. -/
theorem install_resolution_before_mutation_witness :
    install args0 oracleFailRes ⟨[], [], []⟩ =
      (Except.error Err.resolutionFailure, ⟨[], [], []⟩,
        [Event.resolveEnvironmentCall [req0]]) :=
  install_resolution_before_mutation args0 oracleFailRes ⟨[], [], []⟩ "py38" req0 []
    Err.resolutionFailure rfl rfl rfl (by decide) rfl rfl rfl

/-- C7: when an interpreter was explicitly requested and the existing
environment's interpreter does not satisfy it, the environment is only
excluded from the reuse decision (`usableEnvironment` yields none); at
this step it is not deleted and remains on disk unchanged: if the very
next step, the fresh-path resolution, fails, the final state is exactly
the initial one, the environment still present. -/
theorem install_python_mismatch_excludes_env (a : InstallArgs) (o : Oracles) (s : ToolState)
    (interp : String) (fromReq : Req) (withReqs : List Req) (py : String) (env : Environment)
    (hI : o.findInterpreter a.python = Except.ok interp)
    (hF : resolveFromStep a o = Except.ok fromReq)
    (hW : o.resolveWithList a.withSrcs = Except.ok withReqs)
    (hrec : alookup s.receipts fromReq.name ≠ some StoredReceipt.invalid)
    (hE : o.getEnvErr fromReq.name = false)
    (hpy : a.python = some py)
    (henv : alookup s.environments fromReq.name = some env)
    (hsat : o.pythonSatisfied py env.interpreter = false) :
    usableEnvironment a.python o fromReq.name s = none ∧
    (∀ e, o.resolveEnvironment interp (fromReq :: withReqs) = Except.error e →
      install a o s =
        (Except.error e, s, [Event.resolveEnvironmentCall (fromReq :: withReqs)])) := by
  have hu : usableEnvironment a.python o fromReq.name s = none := by
    unfold usableEnvironment
    simp [henv, hpy, hsat]
  exact ⟨hu, fun e he =>
    install_fresh_resolve_error a o s interp fromReq withReqs e hI hF hW hrec hE hu he⟩

/-- Oracle for the C7 witness: the requested interpreter is never
satisfied and environment resolution fails. -/
def oracleC7 : Oracles :=
  { oracleFailRes with pythonSatisfied := fun _ _ => false }

/-- Install request for `pkga` with an explicit interpreter request. -/
def argsC7 : InstallArgs := ⟨"pkga", false, none, [], some "py39", false, opts0, false, false⟩

/-- Witness for C7 at a concrete input: `pkga` has an environment on
interpreter py38, py39 is requested and unsatisfied, resolution fails,
and the state — the environment included — is untouched. -/
theorem install_python_mismatch_excludes_env_witness :
    usableEnvironment argsC7.python oracleC7 "pkga" state0 = none ∧
    install argsC7 oracleC7 state0 =
      (Except.error Err.resolutionFailure, state0, [Event.resolveEnvironmentCall [req0]]) := by
  have h := install_python_mismatch_excludes_env argsC7 oracleC7 state0 "py38" req0 [] "py39"
    env0 rfl rfl rfl (by decide) rfl rfl rfl rfl
  exact ⟨h.1, h.2 Err.resolutionFailure rfl⟩

/-- C8: for a tool processed by `upgrade`, re-resolution uses exactly
the requirement list stored in the existing receipt (the in-place update
is invoked with it, unchanged), and the receipt persisted afterwards
carries that same requirement list, with the merged options
(CLI > receipt > filesystem) and the receipt's interpreter request. -/
theorem upgrade_preserves_requirement_set (args fs : ToolOptions) (o : Oracles) (s : ToolState)
    (n : PackageName) (r : Receipt) (env env1 : Environment)
    (hrec : alookup s.receipts n = some (StoredReceipt.valid r))
    (hE : o.getEnvErr n = false)
    (henv : alookup s.environments n = some env)
    (hupd : o.updateEnvironment env r.requirements = Except.ok env1) :
    Event.updateEnvironmentCall n r.requirements ∈ (upgrade (some n) args fs o s).2.2 ∧
    alookup (upgrade (some n) args fs o s).2.1.receipts n =
      some (StoredReceipt.valid
        ⟨r.requirements, args.combine (r.options.combine fs), r.python⟩) := by
  unfold upgrade upgradeNames upgradeLoop upgradeTool
  simp only [hrec, hE, henv, hupd, install_executables_force_true]
  simp [upgradeLoop, removeEntrypointsState, alookup_aupdate_self]

/-- Witness for C8 at a concrete input: upgrading installed `pkga`
re-resolves with the receipt's requirement list and persists it
unchanged. -/
theorem upgrade_preserves_requirement_set_witness :
    Event.updateEnvironmentCall "pkga" [req0] ∈
      (upgrade (some "pkga") opts0 opts0 oracle0 state0).2.2 ∧
    alookup (upgrade (some "pkga") opts0 opts0 oracle0 state0).2.1.receipts "pkga" =
      some (StoredReceipt.valid ⟨[req0], opts0.combine (opts0.combine opts0), none⟩) :=
  upgrade_preserves_requirement_set opts0 opts0 oracle0 state0 "pkga" rcpt0 env0 env0
    rfl rfl rfl rfl

/-- C6: `upgrade` with no explicit target and an empty installed-tool
set returns success with the "nothing to upgrade" outcome: the final
state is the initial state and the trace is empty. -/
theorem upgrade_empty_success_no_io (args fs : ToolOptions) (o : Oracles) (s : ToolState)
    (h : s.receipts = []) :
    upgrade none args fs o s = (Except.ok ExitStatus.success, s, []) := by
  unfold upgrade upgradeNames
  rw [h]
  cases o.toolsErr <;> simp [sortNames]

/-- Witness for C6 at a concrete input: the empty installation root. -/
theorem upgrade_empty_success_no_io_witness :
    upgrade none opts0 opts0 oracle0 ⟨[], [], []⟩ =
      (Except.ok ExitStatus.success, ⟨[], [], []⟩, []) :=
  upgrade_empty_success_no_io opts0 opts0 oracle0 ⟨[], [], []⟩ rfl

/-- State with an unparseable receipt for `aaa` and a fully valid,
upgradeable install of `pkga`. -/
def stateC1 : ToolState :=
  ⟨[("aaa", StoredReceipt.invalid), ("pkga", StoredReceipt.valid rcpt0)],
    [("pkga", env0)], [("pkga-cli", "pkga")]⟩

/-- C1 counterexample: the claim says one tool's failure never aborts
the rest, every installed tool is attempted, and the failing tool is
recorded per-tool. Here `aaa` has an invalid receipt and `pkga` is fully
valid and would upgrade under this oracle, yet `upgrade(all)` returns
failure with the state completely unchanged and an empty call trace:
`pkga` was never attempted. -/
theorem upgrade_all_aborts_despite_valid_tool :
    upgrade none opts0 opts0 oracle0 stateC1 =
      (Except.ok ExitStatus.failure, stateC1, []) := rfl

/-- A successful per-tool upgrade lets the loop continue on the rest of
the names from the reached state, accumulating the trace. -/
theorem upgradeLoop_cons_success (o : Oracles) (args fs : ToolOptions)
    (m : PackageName) (rest : List PackageName) (s s2 : ToolState) (tr2 : List Event)
    (h : upgradeTool o args fs m s = (Except.ok ExitStatus.success, s2, tr2)) :
    upgradeLoop o args fs (m :: rest) s =
      ((upgradeLoop o args fs rest s2).1, (upgradeLoop o args fs rest s2).2.1,
        tr2 ++ (upgradeLoop o args fs rest s2).2.2) := by
  conv_lhs => rw [upgradeLoop]
  rw [h]

/-- Splitting the name list: when every tool of the first block upgrades
successfully, reaching state `s1` with trace `tr1`, the loop over the
concatenation behaves as the loop over the second block started from
`s1`, with `tr1` prefixed to its trace. -/
theorem upgradeLoop_append (o : Oracles) (args fs : ToolOptions) :
    ∀ (l1 l2 : List PackageName) (s s1 : ToolState) (tr1 : List Event),
      upgradeLoop o args fs l1 s = (Except.ok ExitStatus.success, s1, tr1) →
      upgradeLoop o args fs (l1 ++ l2) s =
        ((upgradeLoop o args fs l2 s1).1, (upgradeLoop o args fs l2 s1).2.1,
          tr1 ++ (upgradeLoop o args fs l2 s1).2.2) := by
  intro l1
  induction l1 with
  | nil =>
      intro l2 s s1 tr1 h
      simp only [upgradeLoop, Prod.mk.injEq] at h
      obtain ⟨-, hs, ht⟩ := h
      subst hs
      subst ht
      rfl
  | cons m l1 ih =>
      intro l2 s s1 tr1 h
      rcases htool : upgradeTool o args fs m s with ⟨res, s2, tr2⟩
      unfold upgradeLoop at h
      rw [htool] at h
      cases res with
      | error e => simp at h
      | ok st =>
          cases st with
          | failure => simp at h
          | success =>
              simp only [Prod.mk.injEq] at h
              obtain ⟨h1, h2, h3⟩ := h
              have hu : upgradeLoop o args fs l1 s2 =
                  (Except.ok ExitStatus.success, s1, (upgradeLoop o args fs l1 s2).2.2) := by
                rw [← h1, ← h2]
              rw [List.cons_append,
                upgradeLoop_cons_success o args fs m (l1 ++ l2) s s2 tr2 htool,
                ih l2 s2 s1 ((upgradeLoop o args fs l1 s2).2.2) hu]
              simp [← h3, List.append_assoc]

/-- C1 amended: in `upgrade(all tools)`, the failure of a tool (missing
receipt, invalid receipt, unreadable or missing environment) aborts
processing immediately, wherever it sits in the sorted name order: the
tools sorted before it upgrade normally (reaching state `s1` with trace
`tr1`), and the command then returns exit failure at the failing tool
with final state exactly `s1` and trace exactly `tr1` — no state change
and no collaborator calls for the failing tool or for any remaining
tool; later installed tools are not attempted. -/
theorem upgrade_aborts_at_first_failing_tool (args fs : ToolOptions) (o : Oracles)
    (s : ToolState) (pre : List PackageName) (n : PackageName) (rest : List PackageName)
    (s1 : ToolState) (tr1 : List Event)
    (hnames : upgradeNames none o s = pre ++ n :: rest)
    (hpre : upgradeLoop o args fs pre s = (Except.ok ExitStatus.success, s1, tr1))
    (hfail : alookup s1.receipts n = none ∨ alookup s1.receipts n = some StoredReceipt.invalid ∨
      o.getEnvErr n = true ∨ alookup s1.environments n = none) :
    upgrade none args fs o s = (Except.ok ExitStatus.failure, s1, tr1) := by
  have htool : upgradeTool o args fs n s1 = (Except.ok ExitStatus.failure, s1, []) := by
    unfold upgradeTool
    rcases hfail with h | h | h | h
    · simp [h]
    · simp [h]
    · rcases hsr : alookup s1.receipts n with _ | sr
      · simp
      · cases sr <;> simp [h]
    · rcases hsr : alookup s1.receipts n with _ | sr
      · simp
      · cases sr with
        | valid r => cases hge : o.getEnvErr n <;> simp [h, hge]
        | invalid => simp
  have hloop : upgradeLoop o args fs (n :: rest) s1 =
      (Except.ok ExitStatus.failure, s1, []) := by
    unfold upgradeLoop
    rw [htool]
  have hne : (pre ++ n :: rest).isEmpty = false := by cases pre <;> simp
  unfold upgrade
  rw [hnames]
  simp only [hne, Bool.false_eq_true, if_false]
  rw [upgradeLoop_append o args fs pre (n :: rest) s s1 tr1 hpre, hloop]
  simp

/-- State with three installed tools: `aaa` and `ccc` fully valid,
`bbb` with a valid receipt but no environment on disk. -/
def stateC1c : ToolState :=
  ⟨[("aaa", StoredReceipt.valid rcpt0), ("bbb", StoredReceipt.valid rcpt0),
      ("ccc", StoredReceipt.valid rcpt0)],
    [("aaa", env0), ("ccc", env0)], []⟩

/-- The state reached after `aaa` upgrades successfully. -/
def stateC1cAfter : ToolState :=
  ⟨[("aaa", StoredReceipt.valid rcpt0), ("bbb", StoredReceipt.valid rcpt0),
      ("ccc", StoredReceipt.valid rcpt0)],
    [("aaa", env0), ("ccc", env0)], [("pkga-cli", "aaa")]⟩

/-- The collaborator calls made while upgrading `aaa`. -/
def traceC1c : List Event :=
  [Event.updateEnvironmentCall "aaa" [req0], Event.removeEntrypointsCall "aaa",
    Event.installExecutablesCall "aaa" true [req0], Event.writeReceipt "aaa" rcpt0]

/-- Witness for the amended C1 at a concrete input: `aaa` upgrades
successfully, then `bbb` — in the middle of the sorted order — fails for
its missing environment; the run ends in failure with exactly the state
and trace of the `aaa` upgrade, and `ccc` is never attempted. -/
theorem upgrade_aborts_at_first_failing_tool_witness :
    upgrade none opts0 opts0 oracle0 stateC1c =
      (Except.ok ExitStatus.failure, stateC1cAfter, traceC1c) :=
  upgrade_aborts_at_first_failing_tool opts0 opts0 oracle0 stateC1c ["aaa"] "bbb" ["ccc"]
    stateC1cAfter traceC1c rfl rfl (Or.inr (Or.inr (Or.inr rfl)))

/-- C10: in `upgrade` with no explicit target, an error while
enumerating the installed tools is swallowed (`unwrap_or_default`) and
treated as an empty tool set: the command returns success with no state
change and no trace, even when tools are installed. -/
theorem upgrade_swallows_enumeration_error (args fs : ToolOptions) (o : Oracles) (s : ToolState)
    (h : o.toolsErr = true) :
    upgrade none args fs o s = (Except.ok ExitStatus.success, s, []) := by
  unfold upgrade upgradeNames
  rw [h]
  simp [sortNames]

/-- Witness for C10 at a concrete input: `pkga` is installed, yet the
failing enumeration makes upgrade-all report nothing to upgrade. -/
theorem upgrade_swallows_enumeration_error_witness :
    upgrade none opts0 opts0 oracleToolsErr state0 =
      (Except.ok ExitStatus.success, state0, []) :=
  upgrade_swallows_enumeration_error opts0 opts0 oracleToolsErr state0 rfl

/-- C9: during `upgrade`, entrypoint installation is invoked with the
force flag unconditionally set: every recorded installation event
carries force = true, for every input. `install`, by contrast, forces
only under `--force` or a forced reinstall: with the force flag off and
the stored receipt not Invalid, every recorded installation event
carries force = false. -/
theorem upgrade_forces_shim_overwrite_unlike_install :
    (∀ (nm : Option PackageName) (args fs : ToolOptions) (o : Oracles) (s : ToolState)
        (m : PackageName) (f : Bool) (rq : List Req),
        Event.installExecutablesCall m f rq ∈ (upgrade nm args fs o s).2.2 → f = true) ∧
    (∀ (a : InstallArgs) (o : Oracles) (s : ToolState) (interp : String) (fromReq : Req)
        (withReqs : List Req) (m : PackageName) (f : Bool) (rq : List Req),
        o.findInterpreter a.python = Except.ok interp →
        resolveFromStep a o = Except.ok fromReq →
        o.resolveWithList a.withSrcs = Except.ok withReqs →
        a.force = false →
        alookup s.receipts fromReq.name ≠ some StoredReceipt.invalid →
        Event.installExecutablesCall m f rq ∈ (install a o s).2.2 → f = false) := by
  constructor
  · intro nm args fs o s m f rq h
    unfold upgrade at h
    cases hne : (upgradeNames nm o s).isEmpty
    · simp only [hne, Bool.false_eq_true, if_false] at h
      exact upgradeLoop_exec_force o args fs _ s m f rq h
    · simp [hne] at h
  · intro a o s interp fromReq withReqs m f rq hI hF hW hforce hninv h
    unfold install at h
    simp only [hI, hF, hW] at h
    rcases hsr : alookup s.receipts fromReq.name with _ | sr
    · simp only [hsr] at h
      cases hge : o.getEnvErr fromReq.name
      · simp only [hge, Bool.false_eq_true, if_false] at h
        rcases hue : usableEnvironment a.python o fromReq.name s with _ | env
        all_goals
          simp only [hue, List.nil_append] at h
          have hf := installMutate_exec_force o a interp fromReq.name
            (fromReq :: withReqs) a.options none false _ s m f rq h
          rw [hforce] at hf
          simpa using hf
      · simp [hge] at h
    · cases sr with
      | invalid => exact absurd hsr hninv
      | valid r =>
          simp only [hsr] at h
          cases hge : o.getEnvErr fromReq.name
          · simp only [hge, Bool.false_eq_true, if_false] at h
            rcases hue : usableEnvironment a.python o fromReq.name s with _ | env
            · simp only [hue, List.nil_append] at h
              have hf := installMutate_exec_force o a interp fromReq.name
                (fromReq :: withReqs) a.options (some r) false none s m f rq h
              rw [hforce] at hf
              simpa using hf
            · simp only [hue] at h
              split at h
              · split at h <;> simp at h
              · simp only [List.nil_append] at h
                have hf := installMutate_exec_force o a interp fromReq.name
                  (fromReq :: withReqs) a.options (some r) false (some env) s m f rq h
                rw [hforce] at hf
                simpa using hf
          · simp [hge] at h

/-- Witness for C9 at concrete inputs: upgrading installed `pkga`
records a forced installation event; a fresh install of `pkga` without
`--force` records an unforced one. -/
theorem upgrade_forces_shim_overwrite_unlike_install_witness :
    true = true ∧ false = false :=
  ⟨upgrade_forces_shim_overwrite_unlike_install.1 (some "pkga") opts0 opts0 oracle0 state0
      "pkga" true [req0] (by decide),
    upgrade_forces_shim_overwrite_unlike_install.2 args0 oracle0 ⟨[], [], []⟩ "py38" req0 []
      "pkga" false [req0] rfl rfl rfl rfl (by decide) (by decide)⟩

end UvTool
